import Mathlib

/-!
# Verification of the asterisk-ami client core

Shallow embedding of the `asterisk-ami` Rust crate:
* `Tag`, `Packet` — the data model (`src/lib.rs`),
* `line_to_tag` — the line parser driven by the regex `^([^:]*): *(.*)$`
  (`src/response.rs`),
* `ResponseBuilder.addLine` — the stateful response classifier
  (`src/response.rs`),
* `packet_to_string` and the connection-actor loop
  `AmiConnection::handle_server_connection` (`src/lib.rs`), modelled as a
  step function on an explicit actor state.
-/

namespace Ami

/-- A tag is a single `key: value` line of the AMI protocol
(struct `Tag` in `src/lib.rs`). -/
structure Tag where
  key : String
  value : String
deriving DecidableEq, Repr

/-- A `Packet` is a sequence of `Tag`s terminated by an empty line
(`pub type Packet = Vec<Tag>`). -/
abbrev Packet := List Tag

/-- ASCII lower-casing of a single character, as done byte-wise by Rust's
`eq_ignore_ascii_case`. -/
def asciiLower (c : Char) : Char :=
  if 'A' ≤ c ∧ c ≤ 'Z' then Char.ofNat (c.toNat + 32) else c

/-- Rust `str::eq_ignore_ascii_case`: equality after ASCII lower-casing. -/
def eqIgnoreAsciiCase (a b : String) : Bool :=
  a.data.map asciiLower == b.data.map asciiLower

/-- `find_tag` from `src/lib.rs`: first tag whose key matches
case-insensitively; returns its value. -/
def find_tag (pkt : Packet) (key : String) : Option String :=
  (pkt.find? (fun t => eqIgnoreAsciiCase t.key key)).map (·.value)

/-- Splits a character list at its first colon: `some (before, after)` when a
colon occurs, `none` otherwise.  This is what the anchored regex fragment
`^([^:]*):` matches: `[^:]*` cannot cross a colon, so the literal `:` of the
pattern is the first colon of the line. -/
def splitAtColon : List Char → Option (List Char × List Char)
  | [] => none
  | c :: rest =>
    if c = ':' then some ([], rest)
    else (splitAtColon rest).map (fun p => (c :: p.1, p.2))

/-- `line_to_tag` from `src/response.rs`: matches the line against
`^([^:]*): *(.*)$` and builds a `Tag` from the two captures.  The greedy
` *` consumes every space after the colon, and `(.*)` (which in the Rust
regex crate matches any character except `\n`) takes the remainder, so the
match fails when the remainder after the spaces still contains a newline. -/
def line_to_tag (line : String) : Option Tag :=
  match splitAtColon line.data with
  | none => none
  | some (k, rest) =>
    let v := rest.dropWhile (fun c => c = ' ')
    if v.contains '\n' then none
    else some ⟨String.mk k, String.mk v⟩

/-- The classifier's result type (`enum Response` in `src/response.rs`). -/
inductive Response where
  | CommandResponse (ps : List Packet)
  | Event (p : Packet)
deriving DecidableEq, Repr

/-- The classifier state (`struct ResponseBuilder` in `src/response.rs`). -/
structure ResponseBuilder where
  response : List Packet
  in_packet : Packet
  in_response_sequence : Bool
deriving DecidableEq, Repr

namespace ResponseBuilder

/-- `ResponseBuilder::new()`: empty buffer, empty in-progress packet,
sequence closed. -/
def new : ResponseBuilder := ⟨[], [], false⟩

/-- `self.in_packet[0].key.eq_ignore_ascii_case("Event")` guarded by
`!self.in_packet.is_empty()`. -/
def firstKeyIsEvent (p : Packet) : Bool :=
  match p with
  | [] => false
  | t :: _ => eqIgnoreAsciiCase t.key "Event"

/-- The `EventList` inspection of `add_line` (`src/response.rs` lines
49–58): the new value of `in_response_sequence` after the completed
packet `in_packet` has been pushed — `start` opens the sequence,
`Complete` closes it, anything else leaves the flag alone. -/
def updateSeq (st : ResponseBuilder) : Bool :=
  match find_tag st.in_packet "EventList" with
  | some v =>
    if eqIgnoreAsciiCase v "start" then true
    else if eqIgnoreAsciiCase v "Complete" then false
    else st.in_response_sequence
  | none => st.in_response_sequence

/-- `ResponseBuilder::add_line` from `src/response.rs`, with the mutated
state made explicit: returns the emitted response (if any) and the new
state. -/
def addLine (st : ResponseBuilder) (line : String) :
    Option Response × ResponseBuilder :=
  if line.isEmpty then
    if !st.in_response_sequence && firstKeyIsEvent st.in_packet then
      (some (.Event st.in_packet), { st with in_packet := [] })
    else
      if !updateSeq st then
        (some (.CommandResponse (st.response ++ [st.in_packet])),
          ⟨[], [], updateSeq st⟩)
      else
        (none, ⟨st.response ++ [st.in_packet], [], updateSeq st⟩)
  else
    match line_to_tag line with
    | some tag => (none, { st with in_packet := st.in_packet ++ [tag] })
    | none => (none, st)

/-- Feed a list of lines to the classifier starting from state `st`,
returning the final state. -/
def runLines (st : ResponseBuilder) (ls : List String) : ResponseBuilder :=
  ls.foldl (fun s l => (addLine s l).2) st

/-- Feed a list of lines to the classifier starting from state `st`,
collecting every emitted `Response` in order, together with the final
state. -/
def runCollect (st : ResponseBuilder) : List String → List Response × ResponseBuilder
  | [] => ([], st)
  | l :: rest =>
    let r := addLine st l
    let r2 := runCollect r.2 rest
    (r.1.toList ++ r2.1, r2.2)

end ResponseBuilder

/-- `packet_to_string` from `src/lib.rs`: the tags rendered as
`key: value` lines joined by CRLF. -/
def packet_to_string (pkt : Packet) : String :=
  String.intercalate "\r\n" (pkt.map (fun t => t.key ++ ": " ++ t.value))

/-- A pending command (`struct Command` in `src/lib.rs`): the packet to
send, and its single-use oneshot reply slot, modelled by an identifier. -/
structure CommandM where
  packet : Packet
  resp : Nat
deriving DecidableEq, Repr

/-- One result of `read_line` on the socket: a line of text, end of
stream, or an I/O error. -/
inductive ReadEv where
  | line (s : String)
  | eof
  | ioErr
deriving DecidableEq, Repr

/-- Which arm of the actor's `tokio::select!` fires (only consulted when
both arms are enabled, i.e. when no command is in flight). -/
inductive Choice where
  | readSock
  | recvCmd
deriving DecidableEq, Repr

/-- The state of the connection-actor loop
(`AmiConnection::handle_server_connection` in `src/lib.rs`):
the in-flight command, the classifier state, the queued commands
(the `mpsc` command channel), the pending socket input, and the
observable history — chunks written to the socket, replies delivered to
oneshot slots, and packets published on the event channel (`none` is the
end-of-stream signal).  `terminated` records that the loop has exited. -/
structure ActorState where
  currentCommand : Option CommandM
  builder : ResponseBuilder
  cmdQueue : List CommandM
  input : List ReadEv
  written : List String
  delivered : List (Nat × List Packet)
  events : List (Option Packet)
  terminated : Bool
deriving DecidableEq, Repr

namespace ActorState

/-- The shutdown path (`src/lib.rs` lines 159–166): publish the
end-of-stream signal, close the command queue, and if a command was in
flight deliver the empty reply list to its slot. -/
def shutdown (s : ActorState) : ActorState :=
  let s' := { s with events := s.events ++ [none], terminated := true }
  match s'.currentCommand with
  | some cmd =>
    { s' with currentCommand := none,
              delivered := s'.delivered ++ [(cmd.resp, [])] }
  | none => s'

/-- The socket-read arm of the loop: consume one read result; on EOF or
error run the shutdown path; on a line, feed `line.trim()` to the
classifier and dispatch its output — an `Event` is published, a
`CommandResponse` is delivered to the in-flight command's slot (clearing
`current_command`) or discarded when none is in flight. -/
def readStep (s : ActorState) : ActorState :=
  match s.input with
  | [] => s
  | ev :: rest =>
    match ev with
    | .eof => shutdown { s with input := rest }
    | .ioErr => shutdown { s with input := rest }
    | .line l =>
      let r := s.builder.addLine l.trim
      let s' := { s with input := rest, builder := r.2 }
      match r.1 with
      | none => s'
      | some (.Event p) => { s' with events := s'.events ++ [some p] }
      | some (.CommandResponse cr) =>
        match s'.currentCommand with
        | some cmd =>
          { s' with currentCommand := none,
                    delivered := s'.delivered ++ [(cmd.resp, cr)] }
        | none => s'

/-- One iteration of the actor loop.  When a command is in flight the
`select!` has a single arm (socket read); only when `current_command` is
`None` may the scheduler pick the command-channel arm, which dequeues the
next command, writes its serialized packet followed by a blank line to
the socket, and marks it in flight. -/
def actorStep (s : ActorState) (ch : Choice) : ActorState :=
  if s.terminated then s
  else
    match s.currentCommand with
    | some _ => s.readStep
    | none =>
      match ch with
      | .readSock => s.readStep
      | .recvCmd =>
        match s.cmdQueue with
        | [] => s
        | c :: rest =>
          { s with cmdQueue := rest,
                   currentCommand := some c,
                   written := s.written ++ [packet_to_string c.packet ++ "\r\n\r\n"] }

/-- The outcome a `send` caller observes (`rx.await.ok()` in
`AmiConnection::send`): `some reply` if its slot was filled, `none` if
the sender was dropped without a delivery. -/
def sendOutcome (delivered : List (Nat × List Packet)) (slot : Nat) :
    Option (List Packet) :=
  (delivered.find? (fun e => e.1 == slot)).map (·.2)

end ActorState

/-! ## Helper lemmas -/

theorem splitAtColon_eq_none (l : List Char) (h : ∀ c ∈ l, c ≠ ':') :
    splitAtColon l = none := by
  induction l with
  | nil => rfl
  | cons c cs ih =>
    have hc : c ≠ ':' := h c (by simp)
    have hcs : ∀ c' ∈ cs, c' ≠ ':' := fun c' hm => h c' (by simp [hm])
    simp [splitAtColon, hc, ih hcs]

theorem splitAtColon_append (k rest : List Char) (hk : ∀ c ∈ k, c ≠ ':') :
    splitAtColon (k ++ ':' :: rest) = some (k, rest) := by
  induction k with
  | nil => simp [splitAtColon]
  | cons c cs ih =>
    have hc : c ≠ ':' := hk c (by simp)
    have hcs : ∀ c' ∈ cs, c' ≠ ':' := fun c' hm => hk c' (by simp [hm])
    simp [splitAtColon, hc, ih hcs]

theorem dropWhile_space_replicate (n : Nat) (v : List Char)
    (hv : v.head? ≠ some ' ') :
    (List.replicate n ' ' ++ v).dropWhile (fun c => c = ' ') = v := by
  induction n with
  | zero =>
    cases v with
    | nil => rfl
    | cons a l =>
      have ha : a ≠ ' ' := by
        intro h
        exact hv (by simp [h])
      simp [List.dropWhile, ha]
  | succ m ih =>
    simpa [List.replicate, List.dropWhile] using ih

theorem line_to_tag_core (kl vl : List Char) (n : Nat)
    (hk : ∀ c ∈ kl, c ≠ ':')
    (hv1 : vl.head? ≠ some ' ')
    (hv2 : '\n' ∉ vl) :
    line_to_tag ⟨kl ++ ':' :: (List.replicate n ' ' ++ vl)⟩
      = some ⟨⟨kl⟩, ⟨vl⟩⟩ := by
  unfold line_to_tag
  rw [show (String.mk (kl ++ ':' :: (List.replicate n ' ' ++ vl))).data
        = kl ++ ':' :: (List.replicate n ' ' ++ vl) from rfl]
  rw [splitAtColon_append kl _ hk]
  simp [dropWhile_space_replicate n vl hv1, hv2]

/-! ## Claim theorems -/

/-- C2: starting from the initial classifier state, the line sequence
`Response: Success` + `EventList: start`, blank, `Event: B`, blank,
`EventList: Complete`, blank produces exactly one emission over the whole
run — a `CommandResponse` holding the three packets in arrival order —
and in particular no `Event` for the second or third packet. -/
theorem c2_eventlist_aggregated_as_one_response :
    (ResponseBuilder.runCollect ResponseBuilder.new
      ["Response: Success", "EventList: start", "", "Event: B", "",
       "EventList: Complete", ""]).1
      = [Response.CommandResponse
          [[⟨"Response", "Success"⟩, ⟨"EventList", "start"⟩],
           [⟨"Event", "B"⟩],
           [⟨"EventList", "Complete"⟩]]] := by
  decide

/-- C3: with no response sequence open, completing a non-empty packet
whose first tag's key is `Event` (case-insensitively) makes `add_line`
emit `Event(packet)` at once; the packet is not buffered, and the
sequence buffer and the sequence-open flag are unchanged. -/
theorem c3_event_emitted_immediately (resp : List Packet) (pkt : Packet)
    (h : ResponseBuilder.firstKeyIsEvent pkt = true) :
    ResponseBuilder.addLine ⟨resp, pkt, false⟩ ""
      = (some (.Event pkt), ⟨resp, [], false⟩) := by
  have he : "".isEmpty = true := rfl
  simp [ResponseBuilder.addLine, he, h]

theorem c3_witness :
    ResponseBuilder.addLine ⟨[], [⟨"Event", "A"⟩], false⟩ ""
      = (some (.Event [⟨"Event", "A"⟩]), ⟨[], [], false⟩) :=
  c3_event_emitted_immediately [] [⟨"Event", "A"⟩] (by decide)

/-- C5: with no open sequence and an empty buffer, a completed packet
that is not event-shaped and carries no `EventList` tag is emitted, on
its terminating blank line, as a `CommandResponse` whose list is exactly
that one packet. -/
theorem c5_bare_reply_single_element (pkt : Packet)
    (h1 : ResponseBuilder.firstKeyIsEvent pkt = false)
    (h2 : find_tag pkt "EventList" = none) :
    ResponseBuilder.addLine ⟨[], pkt, false⟩ ""
      = (some (.CommandResponse [pkt]), ⟨[], [], false⟩) := by
  have he : "".isEmpty = true := rfl
  simp [ResponseBuilder.addLine, ResponseBuilder.updateSeq, he, h1, h2]

theorem c5_witness :
    ResponseBuilder.addLine ⟨[], [⟨"Response", "Success"⟩], false⟩ ""
      = (some (.CommandResponse [[⟨"Response", "Success"⟩]]), ⟨[], [], false⟩) :=
  c5_bare_reply_single_element [⟨"Response", "Success"⟩] (by decide) (by decide)

/-- C7: an empty completed packet is never classified as an `Event`; it
is appended to the sequence buffer, and when no sequence is open the call
returns a `CommandResponse` whose list contains that empty packet. -/
theorem c7_empty_packet_never_event (resp : List Packet) (seq : Bool) :
    (∀ p, (ResponseBuilder.addLine ⟨resp, [], seq⟩ "").1 ≠ some (.Event p)) ∧
    (seq = true →
      ResponseBuilder.addLine ⟨resp, [], seq⟩ ""
        = (none, ⟨resp ++ [[]], [], true⟩)) ∧
    (seq = false →
      ResponseBuilder.addLine ⟨resp, [], seq⟩ ""
        = (some (.CommandResponse (resp ++ [[]])), ⟨[], [], false⟩)
      ∧ ([] : Packet) ∈ resp ++ [[]]) := by
  have he : "".isEmpty = true := rfl
  cases seq <;>
    simp [ResponseBuilder.addLine, ResponseBuilder.updateSeq,
      ResponseBuilder.firstKeyIsEvent, find_tag, he]

theorem c7_witness :
    ResponseBuilder.addLine ⟨[], [], false⟩ ""
      = (some (.CommandResponse [[]]), ⟨[], [], false⟩)
    ∧ ([] : Packet) ∈ ([[]] : List Packet) :=
  (c7_empty_packet_never_event [] false).2.2 rfl

/-- C9: line parsing is total by construction, and a non-blank line with
no colon yields no `Tag`: `line_to_tag` returns `none` and `add_line`
leaves every classifier state unchanged while emitting nothing. -/
theorem c9_no_colon_line_dropped (line : String)
    (hne : line.isEmpty = false)
    (hnc : ∀ c ∈ line.data, c ≠ ':') :
    line_to_tag line = none ∧
    ∀ st : ResponseBuilder, st.addLine line = (none, st) := by
  have h : line_to_tag line = none := by
    unfold line_to_tag
    rw [splitAtColon_eq_none line.data hnc]
  exact ⟨h, fun st => by simp [ResponseBuilder.addLine, hne, h]⟩

/-- C6 counterexample: for the tag `Tag "A" " x"` (key without colon,
value with a leading space), serializing with the packet serializer and
re-parsing yields `Tag "A" "x"`, not the original tag: the regex's greedy
` *` also consumes the value's own leading space. -/
theorem c6_counterexample :
    line_to_tag (packet_to_string [⟨"A", " x"⟩]) = some ⟨"A", "x"⟩ ∧
    line_to_tag (packet_to_string [⟨"A", " x"⟩]) ≠ some ⟨"A", " x"⟩ := by
  decide

/-- C6 (amended): for every key containing no colon and every value that
does not start with a space and contains no newline, parsing the
serialized line `key: value` yields back exactly that tag — and the same
tag is recovered however many spaces follow the colon. -/
theorem c6_parse_render_roundtrip (k v : String) (n : Nat)
    (hk : ∀ c ∈ k.data, c ≠ ':')
    (hv1 : v.data.head? ≠ some ' ')
    (hv2 : '\n' ∉ v.data) :
    line_to_tag (packet_to_string [⟨k, v⟩]) = some ⟨k, v⟩ ∧
    line_to_tag (k ++ ":" ++ String.mk (List.replicate n ' ') ++ v)
      = some ⟨k, v⟩ := by
  constructor
  · have e : packet_to_string [⟨k, v⟩]
        = ⟨k.data ++ ':' :: (List.replicate 1 ' ' ++ v.data)⟩ := by
      apply String.ext
      show (k ++ ": " ++ v).data = _
      simp [String.data_append, List.append_assoc]
    rw [e, line_to_tag_core _ _ _ hk hv1 hv2]
  · have e : k ++ ":" ++ String.mk (List.replicate n ' ') ++ v
        = ⟨k.data ++ ':' :: (List.replicate n ' ' ++ v.data)⟩ := by
      apply String.ext
      simp [String.data_append, List.append_assoc]
    rw [e, line_to_tag_core _ _ _ hk hv1 hv2]

theorem c6_witness :
    line_to_tag (packet_to_string [⟨"Response", "Success"⟩])
      = some ⟨"Response", "Success"⟩ ∧
    line_to_tag ("Response" ++ ":" ++ String.mk (List.replicate 3 ' ') ++ "Success")
      = some ⟨"Response", "Success"⟩ :=
  c6_parse_render_roundtrip "Response" "Success" 3 (by decide) (by decide)
    (by decide)

theorem c9_witness :
    line_to_tag "Asterisk Call Manager" = none ∧
    ∀ st : Ami.ResponseBuilder,
      st.addLine "Asterisk Call Manager" = (none, st) :=
  c9_no_colon_line_dropped "Asterisk Call Manager" (by decide) (by decide)

theorem readStep_inflight (s : ActorState) (c : CommandM)
    (h : s.currentCommand = some c) :
    s.readStep.written = s.written ∧
    s.readStep.cmdQueue = s.cmdQueue ∧
    (s.readStep.currentCommand = none →
      ∃ cr, s.readStep.delivered = s.delivered ++ [(c.resp, cr)]) := by
  unfold ActorState.readStep
  cases hin : s.input with
  | nil => simp [h]
  | cons ev rest =>
    cases ev with
    | eof => simp [ActorState.shutdown, h]
    | ioErr => simp [ActorState.shutdown, h]
    | line l =>
      cases hr : (s.builder.addLine l.trim).1 with
      | none => simp [hr, h]
      | some r =>
        cases r with
        | Event p => simp [hr, h]
        | CommandResponse cr => simp [hr, h]

/-- C1: while a command is in flight (`current_command` is `Some`), one
loop iteration never writes a packet to the socket and never dequeues a
queued command — whichever `select!` choice the scheduler would make —
and if the iteration clears `current_command` then it has delivered a
`CommandResponse` to precisely that command's reply slot. -/
theorem c1_one_command_in_flight (s : ActorState) (ch : Choice)
    (c : CommandM)
    (h : s.currentCommand = some c) :
    (s.actorStep ch).written = s.written ∧
    (s.actorStep ch).cmdQueue = s.cmdQueue ∧
    ((s.actorStep ch).currentCommand = none →
      ∃ cr, (s.actorStep ch).delivered = s.delivered ++ [(c.resp, cr)]) := by
  unfold ActorState.actorStep
  cases ht : s.terminated with
  | true => simp [h]
  | false =>
    simp only [h, Bool.false_eq_true, if_false]
    exact readStep_inflight s c h

theorem c1_witness :
    ((⟨some ⟨[⟨"Action", "Ping"⟩], 0⟩, .new, [⟨[], 1⟩], [.line "x"], [],
        [], [], false⟩ : ActorState).actorStep .recvCmd).written = [] ∧
    ((⟨some ⟨[⟨"Action", "Ping"⟩], 0⟩, .new, [⟨[], 1⟩], [.line "x"], [],
        [], [], false⟩ : ActorState).actorStep .recvCmd).cmdQueue
      = [⟨[], 1⟩] := by
  have h := c1_one_command_in_flight
    ⟨some ⟨[⟨"Action", "Ping"⟩], 0⟩, .new, [⟨[], 1⟩], [.line "x"], [],
      [], [], false⟩
    .recvCmd ⟨[⟨"Action", "Ping"⟩], 0⟩ rfl
  exact ⟨h.1, h.2.1⟩

/-- C8: when no command is in flight and the queue is non-empty, the
command-channel arm writes to the socket exactly the tag lines
`key: value` of the dequeued packet, in packet order, joined by CRLF and
followed by CRLF CRLF. -/
theorem c8_serialized_write (s : ActorState) (c : CommandM)
    (rest : List CommandM)
    (ht : s.terminated = false)
    (hc : s.currentCommand = none)
    (hq : s.cmdQueue = c :: rest) :
    (s.actorStep .recvCmd).written
      = s.written ++
        [String.intercalate "\r\n"
          (c.packet.map (fun t => t.key ++ ": " ++ t.value)) ++ "\r\n\r\n"] := by
  unfold ActorState.actorStep
  simp [ht, hc, hq, packet_to_string]

theorem c8_witness :
    ((⟨none, .new, [⟨[⟨"Action", "Ping"⟩, ⟨"ActionID", "7"⟩], 5⟩], [], [],
        [], [], false⟩ : ActorState).actorStep .recvCmd).written
      = [] ++ ["Action: Ping\r\nActionID: 7\r\n\r\n"] := by
  have h := c8_serialized_write
    ⟨none, .new, [⟨[⟨"Action", "Ping"⟩, ⟨"ActionID", "7"⟩], 5⟩], [], [],
      [], [], false⟩
    ⟨[⟨"Action", "Ping"⟩, ⟨"ActionID", "7"⟩], 5⟩ [] rfl rfl rfl
  simpa using h

/-- C4 counterexample: connection torn down (EOF) with a command in
flight and no reply delivered — the `send` caller's outcome is
`some []`, the empty reply list, not the option's `none` case as the
claim states. -/
theorem c4_counterexample :
    ActorState.sendOutcome
      ((⟨some ⟨[⟨"Action", "Ping"⟩], 0⟩, .new, [], [.eof], [], [], [],
          false⟩ : ActorState).actorStep .readSock).delivered 0
      = some [] ∧
    ActorState.sendOutcome
      ((⟨some ⟨[⟨"Action", "Ping"⟩], 0⟩, .new, [], [.eof], [], [], [],
          false⟩ : ActorState).actorStep .readSock).delivered 0
      ≠ none := by
  decide

/-- C4 (amended): if the connection is torn down (read EOF or I/O error)
while a command is in flight and its reply has not yet been delivered,
that command's `send` call resolves — it does not hang — to `some []`,
the sentinel empty reply list delivered by the shutdown path, rather than
to the option's `none` case. -/
theorem c4_shutdown_delivers_empty_list (s : ActorState) (c : CommandM)
    (rest : List ReadEv)
    (ht : s.terminated = false)
    (hc : s.currentCommand = some c)
    (hin : s.input = ReadEv.eof :: rest ∨ s.input = ReadEv.ioErr :: rest)
    (hnd : s.delivered.find? (fun e => e.1 == c.resp) = none) :
    ActorState.sendOutcome (s.actorStep .readSock).delivered c.resp
      = some []
    ∧ (s.actorStep .readSock).terminated = true := by
  unfold ActorState.actorStep ActorState.readStep ActorState.shutdown
    ActorState.sendOutcome
  rcases hin with hin | hin <;>
    simp [ht, hc, hin, hnd]

theorem c4_witness :
    ActorState.sendOutcome
      ((⟨some ⟨[⟨"Action", "Ping"⟩], 3⟩, .new, [], [.ioErr], [], [], [],
          false⟩ : ActorState).actorStep .readSock).delivered 3
      = some []
    ∧ ((⟨some ⟨[⟨"Action", "Ping"⟩], 3⟩, .new, [], [.ioErr], [], [], [],
          false⟩ : ActorState).actorStep .readSock).terminated = true :=
  c4_shutdown_delivers_empty_list
    ⟨some ⟨[⟨"Action", "Ping"⟩], 3⟩, .new, [], [.ioErr], [], [], [], false⟩
    ⟨[⟨"Action", "Ping"⟩], 3⟩ [] rfl rfl (Or.inr rfl) rfl

theorem addLine_inv (st : ResponseBuilder) (l : String)
    (h : st.in_response_sequence = true → st.response ≠ []) :
    (st.addLine l).2.in_response_sequence = true →
      (st.addLine l).2.response ≠ [] := by
  unfold ResponseBuilder.addLine
  split
  · split
    · exact fun hseq => h hseq
    · split
      · next hseq' =>
        intro hseq
        simp_all
      · intro _
        simp
  · split
    · exact fun hseq => h hseq
    · exact fun hseq => h hseq

theorem runLines_inv (ls : List String) :
    ∀ st : ResponseBuilder,
      (st.in_response_sequence = true → st.response ≠ []) →
      ((st.runLines ls).in_response_sequence = true →
        (st.runLines ls).response ≠ []) := by
  induction ls with
  | nil => exact fun st h => h
  | cons l rest ih => exact fun st h => ih _ (addLine_inv st l h)

theorem addLine_cr_ne_nil (st : ResponseBuilder) (l : String)
    (cr : List Packet)
    (h : (st.addLine l).1 = some (.CommandResponse cr)) : cr ≠ [] := by
  unfold ResponseBuilder.addLine at h
  split at h
  · split at h
    · simp at h
    · split at h
      · simp at h
        simp [← h]
      · simp at h
  · split at h <;> simp at h

theorem delivered_empty_only_at_shutdown (s : ActorState) (ch : Choice)
    (c : CommandM)
    (hc : s.currentCommand = some c)
    (hd : (s.actorStep ch).delivered = s.delivered ++ [(c.resp, [])]) :
    (s.actorStep ch).terminated = true := by
  unfold ActorState.actorStep at hd ⊢
  cases ht : s.terminated with
  | true => simp [ht]
  | false =>
    simp only [ht, Bool.false_eq_true, if_false, hc] at hd ⊢
    unfold ActorState.readStep at hd ⊢
    cases hin : s.input with
    | nil => simp [hin] at hd
    | cons ev rest =>
      cases ev with
      | eof => simp [hin, ActorState.shutdown, hc]
      | ioErr => simp [hin, ActorState.shutdown, hc]
      | line l =>
        cases hr : (s.builder.addLine l.trim).1 with
        | none => simp [hin, hr] at hd
        | some r =>
          cases r with
          | Event p => simp [hin, hr] at hd
          | CommandResponse cr =>
            have hne := addLine_cr_ne_nil s.builder l.trim cr hr
            simp [hin, hr, hc] at hd
            exact absurd hd hne

/-- C10: in every classifier state reachable from the initial one the
sequence-open flag implies a non-empty sequence buffer; every
`CommandResponse` `add_line` emits (from any state at all) holds at
least one packet; and an empty reply list is delivered to an in-flight
command's slot only by a loop-terminating (shutdown) step of the actor,
never by the classifier's dispatch. -/
theorem c10_nonempty_command_responses :
    (∀ ls : List String,
      (ResponseBuilder.new.runLines ls).in_response_sequence = true →
      (ResponseBuilder.new.runLines ls).response ≠ []) ∧
    (∀ (st : ResponseBuilder) (l : String) (cr : List Packet),
      (st.addLine l).1 = some (.CommandResponse cr) → cr ≠ []) ∧
    (∀ (s : ActorState) (ch : Choice) (c : CommandM),
      s.currentCommand = some c →
      (s.actorStep ch).delivered = s.delivered ++ [(c.resp, [])] →
      (s.actorStep ch).terminated = true) :=
  ⟨fun ls => runLines_inv ls ResponseBuilder.new
      (fun h => by simp [ResponseBuilder.new] at h),
   addLine_cr_ne_nil,
   delivered_empty_only_at_shutdown⟩

theorem c10_witness :
    ([[(⟨"Response", "Success"⟩ : Tag)]] : List Packet) ≠ [] :=
  c10_nonempty_command_responses.2.1 ⟨[], [⟨"Response", "Success"⟩], false⟩
    "" [[⟨"Response", "Success"⟩]] (by decide)

end Ami
